import Mathlib

/-!
Shallow embedding of the idempotent event-processing samples in
GoogleCloudPlatform/cloud-functions-reliability-nodejs.

The embedding covers:
  * the dedup ledger of src/idempotency/index.js: the transactional
    shouldSendWithLease decision and the markSent commit;
  * the ledger-gated processor idempotentEmailFunction and the
    write-then-call processor idempotentFirestoreFunction of the same file;
  * the order pipeline processOrderRetryIdempotent of
    src/order-processing/index.js;
  * the Pub/Sub message parsing shared by the entry points
    (nonIdempotentFirestoreFunction, pubSubFunction, nonIdempotentProcessOrder).

Modelling conventions: Firestore documents become Option values (none is an
absent document); timestamps are Nat milliseconds; a transaction becomes a
pure function from the document value to the pair of JS return value and new
document value; promise rejection becomes an AttemptResult.failure; the
external builtins JSON.parse and the base64 decoding of Buffer.from, and the
random outcomes of the flaky, chooseCook and prepareMeal services, are
injected as explicit parameters, since they are external collaborators of
the repository code.
-/

/-- Model of a parsed JSON value, the result type of the external builtin
JSON.parse; only the empty object Json.obj [] matters to the claims. -/
inductive Json where
  | obj : List (String × Json) → Json
  | arr : List Json → Json
  | str : String → Json
  | num : Int → Json
  | bool : Bool → Json
  | null

/-- The literal text of an empty JSON object, the fallback the source feeds
to JSON.parse when the decoded message body is empty. -/
def jsonEmptyObjectText : String := "\x7b\x7d"

/-- Embedding of the shared parse expression of the Pub/Sub entry points in
src/idempotency/index.js and src/retries/index.js:
JSON.parse of (decode of (message.data or empty), or the empty-object text).
jsonParse and base64ToString stand for the external builtins. -/
def messageContent (jsonParse : String → Except String Json)
    (base64ToString : String → String) (data : Option String) :
    Except String Json :=
  let decoded := base64ToString (data.getD "")
  jsonParse (if decoded = "" then jsonEmptyObjectText else decoded)

/-- Embedding of the meal expression of the order entry points in
src/order-processing/index.js: message.data is decoded when it is truthy,
otherwise the meal is the empty string. -/
def orderMeal (base64ToString : String → String) (data : Option String) :
    String :=
  match data with
  | none => ""
  | some d => if d = "" then "" else base64ToString d

/-- The three ways the shouldSendWithLease transaction resolves:
shouldRun is the JS value true, alreadyDone is the JS value false, and
leaseHeld is the rejected promise for a live lease. -/
inductive Decision where
  | shouldRun
  | alreadyDone
  | leaseHeld
  deriving Repr, DecidableEq

/-- A sentEmails document in Cloud Firestore: markSent writes sent true
with no lease field, and the lease branch of shouldSendWithLease writes a
lease timestamp with no sent field. -/
structure DedupRecord where
  sent : Bool
  lease : Option Nat
  deriving Repr, DecidableEq

/-- The lease duration constant of src/idempotency/index.js, 60s in ms. -/
def leaseTime : Nat := 60 * 1000

/-- JS truthiness of emailDoc.exists and emailDoc.data().sent. -/
def docSent : Option DedupRecord → Bool
  | some d => d.sent
  | none => false

/-- JS truthiness of emailDoc.exists and (new Date() less than the lease
field); comparing a Date against an undefined lease field is false in JS,
matching the none branch. -/
def docLiveLease (now : Nat) : Option DedupRecord → Bool
  | some d =>
    match d.lease with
    | some t => decide (now < t)
    | none => false
  | none => false

/-- The body of the shouldSendWithLease transaction of
src/idempotency/index.js, generalized over the lease duration: return false
when the document is marked sent; reject when a live lease exists; otherwise
replace the document with a fresh lease and return true. -/
def shouldSendWithLeaseAt (now leaseDuration : Nat)
    (doc : Option DedupRecord) : Decision × Option DedupRecord :=
  if docSent doc then
    (Decision.alreadyDone, doc)
  else if docLiveLease now doc then
    (Decision.leaseHeld, doc)
  else
    (Decision.shouldRun, some { sent := false, lease := some (now + leaseDuration) })

/-- shouldSendWithLease as the source runs it, with the leaseTime constant. -/
def shouldSendWithLease (now : Nat) (doc : Option DedupRecord) :
    Decision × Option DedupRecord :=
  shouldSendWithLeaseAt now leaseTime doc

/-- markSent of src/idempotency/index.js: set replaces the whole document
with the object holding only sent true. -/
def markSent (_doc : Option DedupRecord) : Option DedupRecord :=
  some { sent := true, lease := none }

/-- An operation on one dedup record: a decide transaction at a given time
and lease duration, or a markSent commit. -/
inductive LedgerOp where
  | decide (now leaseDuration : Nat)
  | markDone
  deriving Repr, DecidableEq

/-- The state change of one ledger operation. -/
def stepLedger : LedgerOp → Option DedupRecord → Option DedupRecord
  | LedgerOp.decide now leaseDuration, doc => (shouldSendWithLeaseAt now leaseDuration doc).2
  | LedgerOp.markDone, doc => markSent doc

/-- Run a sequence of ledger operations on one record, first to last. -/
def runLedger (ops : List LedgerOp) (doc : Option DedupRecord) :
    Option DedupRecord :=
  ops.foldl (fun d op => stepLedger op d) doc

/-- Run a sequence of decide transactions at the given times, all with the
same lease duration, collecting the decisions and the final record. -/
def decideSeq (times : List Nat) (leaseDuration : Nat)
    (doc : Option DedupRecord) : List Decision × Option DedupRecord :=
  match times with
  | [] => ([], doc)
  | t :: ts =>
    let step := shouldSendWithLeaseAt t leaseDuration doc
    let rest := decideSeq ts leaseDuration step.2
    (step.1 :: rest.1, rest.2)

/-- Claim C1: the decide transaction satisfies the four-case contract: an
absent record is leased to now plus the duration and resolves shouldRun; a
sent record resolves alreadyDone with no write; an unsent record with a
lease strictly beyond now rejects with leaseHeld and no write; an unsent
record with an expired lease is re-leased and resolves shouldRun. -/
theorem shouldSendWithLease_contract (now leaseDuration : Nat) :
    shouldSendWithLeaseAt now leaseDuration none =
      (Decision.shouldRun, some { sent := false, lease := some (now + leaseDuration) }) ∧
    (∀ d : DedupRecord, d.sent = true →
      shouldSendWithLeaseAt now leaseDuration (some d) = (Decision.alreadyDone, some d)) ∧
    (∀ (d : DedupRecord) (t : Nat), d.sent = false → d.lease = some t → now < t →
      shouldSendWithLeaseAt now leaseDuration (some d) = (Decision.leaseHeld, some d)) ∧
    (∀ (d : DedupRecord) (t : Nat), d.sent = false → d.lease = some t → t ≤ now →
      shouldSendWithLeaseAt now leaseDuration (some d) =
        (Decision.shouldRun, some { sent := false, lease := some (now + leaseDuration) })) := by
  refine ⟨rfl, ?_, ?_, ?_⟩
  · intro d hs
    simp [shouldSendWithLeaseAt, docSent, hs]
  · intro d t hs hl hlt
    simp [shouldSendWithLeaseAt, docSent, docLiveLease, hs, hl, hlt]
  · intro d t hs hl hle
    simp [shouldSendWithLeaseAt, docSent, docLiveLease, hs, hl, Nat.not_lt.mpr hle]

/-- Witness for C1: the contract applied at concrete records, covering all
four cases. -/
theorem shouldSendWithLease_contract_witness :
    shouldSendWithLeaseAt 5 10 none =
      (Decision.shouldRun, some { sent := false, lease := some 15 }) ∧
    shouldSendWithLeaseAt 5 10 (some { sent := true, lease := none }) =
      (Decision.alreadyDone, some { sent := true, lease := none }) ∧
    shouldSendWithLeaseAt 5 10 (some { sent := false, lease := some 9 }) =
      (Decision.leaseHeld, some { sent := false, lease := some 9 }) ∧
    shouldSendWithLeaseAt 5 10 (some { sent := false, lease := some 3 }) =
      (Decision.shouldRun, some { sent := false, lease := some 15 }) :=
  ⟨(shouldSendWithLease_contract 5 10).1,
   (shouldSendWithLease_contract 5 10).2.1 { sent := true, lease := none } rfl,
   (shouldSendWithLease_contract 5 10).2.2.1 { sent := false, lease := some 9 } 9
     rfl rfl (by decide),
   (shouldSendWithLease_contract 5 10).2.2.2 { sent := false, lease := some 3 } 3
     rfl rfl (by decide)⟩

/-- Claim C7: at now equal to the lease expiry exactly, an unsent record is
treated as expired: it is re-leased and resolves shouldRun; and the
live-lease rejection happens only when now is strictly before the expiry. -/
theorem shouldSendWithLease_boundary (leaseDuration : Nat) (d : DedupRecord)
    (t : Nat) (hs : d.sent = false) (hl : d.lease = some t) :
    shouldSendWithLeaseAt t leaseDuration (some d) =
      (Decision.shouldRun, some { sent := false, lease := some (t + leaseDuration) }) ∧
    (∀ now : Nat,
      (shouldSendWithLeaseAt now leaseDuration (some d)).1 = Decision.leaseHeld →
      now < t) := by
  constructor
  · simp [shouldSendWithLeaseAt, docSent, docLiveLease, hs, hl]
  · intro now h
    by_contra hge
    simp [shouldSendWithLeaseAt, docSent, docLiveLease, hs, hl, hge] at h

/-- Witness for C7: a record leased to time 9 is re-leased by a decide call
at time 9 exactly. -/
theorem shouldSendWithLease_boundary_witness :
    shouldSendWithLeaseAt 9 10 (some { sent := false, lease := some 9 }) =
      (Decision.shouldRun, some { sent := false, lease := some 19 }) :=
  (shouldSendWithLease_boundary 10 { sent := false, lease := some 9 } 9 rfl rfl).1

/-- A record holding an unexpired lease turns every decide call strictly
before the expiry into leaseHeld and is left unchanged. -/
theorem decideSeq_liveLease (ts : List Nat) (leaseDuration expiry : Nat)
    (h : ∀ t ∈ ts, t < expiry) :
    decideSeq ts leaseDuration (some { sent := false, lease := some expiry }) =
      (ts.map fun _ => Decision.leaseHeld,
       some { sent := false, lease := some expiry }) := by
  induction ts with
  | nil => rfl
  | cons t ts ih =>
    have ht : t < expiry := h t (List.mem_cons_self t ts)
    have hrest : ∀ u ∈ ts, u < expiry := fun u hu => h u (List.mem_cons_of_mem t hu)
    simp [decideSeq, shouldSendWithLeaseAt, docSent, docLiveLease, ht, ih hrest]

/-- Claim C2: starting from an unseen identifier, in any sequence of decide
transactions all issued before the lease expiry written by the first call,
exactly one call resolves shouldRun and every other call resolves leaseHeld
or alreadyDone. -/
theorem decide_mutual_exclusion (leaseDuration t0 : Nat) (ts : List Nat)
    (h : ∀ t ∈ ts, t < t0 + leaseDuration) :
    (decideSeq (t0 :: ts) leaseDuration none).1.count Decision.shouldRun = 1 ∧
    ∀ r ∈ (decideSeq (t0 :: ts) leaseDuration none).1,
      r ≠ Decision.shouldRun →
      r = Decision.leaseHeld ∨ r = Decision.alreadyDone := by
  have h1 : shouldSendWithLeaseAt t0 leaseDuration none =
      (Decision.shouldRun,
       some { sent := false, lease := some (t0 + leaseDuration) }) := rfl
  have h2 := decideSeq_liveLease ts leaseDuration (t0 + leaseDuration) h
  constructor
  · simp [decideSeq, h1, h2, List.count_cons, List.count_eq_zero, List.mem_map]
  · intro r _ hne
    cases r with
    | shouldRun => exact absurd rfl hne
    | alreadyDone => exact Or.inr rfl
    | leaseHeld => exact Or.inl rfl

/-- Witness for C2: four decide calls inside one lease window resolve
shouldRun exactly once. -/
theorem decide_mutual_exclusion_witness :
    (decideSeq [0, 1, 59999, 30000] leaseTime none).1.count Decision.shouldRun = 1 :=
  (decide_mutual_exclusion leaseTime 0 [1, 59999, 30000] (by decide)).1

/-- After markSent, no sequence of ledger operations changes the record. -/
theorem runLedger_after_markSent (ops : List LedgerOp)
    (prev : Option DedupRecord) :
    runLedger ops (markSent prev) = markSent prev := by
  induction ops with
  | nil => rfl
  | cons op ops ih =>
    have hstep : stepLedger op (markSent prev) = markSent prev := by
      cases op with
      | decide now leaseDuration => rfl
      | markDone => rfl
    calc runLedger (op :: ops) (markSent prev)
        = runLedger ops (stepLedger op (markSent prev)) := rfl
      _ = runLedger ops (markSent prev) := by rw [hstep]
      _ = markSent prev := ih

/-- Claim C3: the sent state is absorbing: after markSent, any sequence of
decide and markSent operations leaves the record equal to the sent record,
and every later decide call, at any time and lease duration, resolves
alreadyDone with the record unchanged. -/
theorem markSent_absorbing (prev : Option DedupRecord) (ops : List LedgerOp)
    (now leaseDuration : Nat) :
    runLedger ops (markSent prev) = markSent prev ∧
    shouldSendWithLeaseAt now leaseDuration (runLedger ops (markSent prev)) =
      (Decision.alreadyDone, markSent prev) := by
  have h := runLedger_after_markSent ops prev
  exact ⟨h, by rw [h]; rfl⟩

/-- Outcome of one delivery attempt: the returned promise resolves or
rejects with a message. -/
inductive AttemptResult where
  | success
  | failure (msg : String)
  deriving Repr, DecidableEq

/-- An order document of src/order-processing/index.js: built from the
event id, the event timestamp and the decoded meal; the cook field is
assigned only when the transaction stores the order. -/
structure Order where
  id : String
  timestamp : String
  meal : String
  cook : Option String
  deriving Repr, DecidableEq

/-- An observable side effect of one delivery attempt: the simulated email
send, the sentEmails or contents write, the flaky call with its optional
idempotency key, the chooseCook call, the order write, and the prepareMeal
call with either the full order body or only the order id. -/
inductive Effect where
  | sendEmail
  | writeStore
  | callFlaky (idemKey : Option String)
  | callChooseCook
  | writeOrder
  | callPrepareMeal (body : Order)
  | callPrepareMealById (orderId : String)
  deriving Repr, DecidableEq

/-- Embedding of idempotentEmailFunction of src/idempotency/index.js: parse
the message, run the shouldSendWithLease transaction, on true log the email
and markSent, then call the flaky service with the event id in every
resolved branch; a live lease rejects the whole chain with no effect. -/
def idempotentEmailFunction (jsonParse : String → Except String Json)
    (base64ToString : String → String) (data : Option String)
    (eventId : String) (now : Nat) (flakyOk : Bool)
    (doc : Option DedupRecord) :
    Option DedupRecord × List Effect × AttemptResult :=
  match messageContent jsonParse base64ToString data with
  | Except.error e => (doc, [], AttemptResult.failure e)
  | Except.ok _content =>
    match shouldSendWithLease now doc with
    | (Decision.leaseHeld, doc1) =>
      (doc1, [], AttemptResult.failure "Lease already taken, try later.")
    | (Decision.alreadyDone, doc1) =>
      (doc1, [Effect.callFlaky (some eventId)],
       if flakyOk then AttemptResult.success
       else AttemptResult.failure "Flaky service failed.")
    | (Decision.shouldRun, doc1) =>
      (markSent doc1,
       [Effect.sendEmail, Effect.writeStore, Effect.callFlaky (some eventId)],
       if flakyOk then AttemptResult.success
       else AttemptResult.failure "Flaky service failed.")

/-- Embedding of idempotentFirestoreFunction of src/idempotency/index.js:
parse the message, then set the contents document keyed by the event id,
replacing any existing content, then call the flaky service with the event
id. The doc argument is the document currently stored under the event id. -/
def idempotentFirestoreFunction (jsonParse : String → Except String Json)
    (base64ToString : String → String) (data : Option String)
    (eventId : String) (flakyOk : Bool) (doc : Option Json) :
    Option Json × List Effect × AttemptResult :=
  match messageContent jsonParse base64ToString data with
  | Except.error e => (doc, [], AttemptResult.failure e)
  | Except.ok content =>
    (some content, [Effect.writeStore, Effect.callFlaky (some eventId)],
     if flakyOk then AttemptResult.success
     else AttemptResult.failure "Flaky service failed.")

/-- Embedding of nonIdempotentFirestoreFunction of src/idempotency/index.js:
parse the message, add a fresh document to the contents collection, then
call the flaky service with no idempotency key. -/
def nonIdempotentFirestoreFunction (jsonParse : String → Except String Json)
    (base64ToString : String → String) (data : Option String)
    (flakyOk : Bool) (store : List Json) :
    List Json × List Effect × AttemptResult :=
  match messageContent jsonParse base64ToString data with
  | Except.error e => (store, [], AttemptResult.failure e)
  | Except.ok content =>
    (store ++ [content], [Effect.writeStore, Effect.callFlaky none],
     if flakyOk then AttemptResult.success
     else AttemptResult.failure "Flaky service failed.")

/-- Embedding of pubSubFunction of src/retries/index.js: parse the message
and call the flaky service with no idempotency key. -/
def pubSubFunction (jsonParse : String → Except String Json)
    (base64ToString : String → String) (data : Option String)
    (flakyOk : Bool) : List Effect × AttemptResult :=
  match messageContent jsonParse base64ToString data with
  | Except.error e => ([], AttemptResult.failure e)
  | Except.ok _content =>
    ([Effect.callFlaky none],
     if flakyOk then AttemptResult.success
     else AttemptResult.failure "Flaky service failed.")

/-- The fields of a Pub/Sub event used by the order pipeline. -/
structure OrderEvent where
  eventId : String
  timestamp : String
  data : Option String
  deriving Repr, DecidableEq

/-- The order object built at the top of both order processors, before any
cook is assigned. -/
def builtOrder (base64ToString : String → String) (ev : OrderEvent) : Order :=
  { id := ev.eventId, timestamp := ev.timestamp,
    meal := orderMeal base64ToString ev.data, cook := none }

/-- Embedding of processOrderRetryIdempotent of
src/order-processing/index.js: call chooseCook first; on success run a
transaction that stores the order with the chosen cook only when no
document exists under the event id; then call prepareMeal with only the
order id. chooseCookResult is none when the chooseCook call fails, in which
case the chain rejects before the transaction. The doc argument is the
document currently stored under the event id in incomingRetryIdempotent. -/
def processOrderRetryIdempotent (base64ToString : String → String)
    (ev : OrderEvent) (chooseCookResult : Option String)
    (prepareMealOk : Bool) (doc : Option Order) :
    Option Order × List Effect × AttemptResult :=
  match chooseCookResult with
  | none =>
    (doc, [Effect.callChooseCook],
     AttemptResult.failure "Transient failure from chooseCook.")
  | some cook =>
    match doc with
    | none =>
      (some { builtOrder base64ToString ev with cook := some cook },
       [Effect.callChooseCook, Effect.writeOrder,
        Effect.callPrepareMealById ev.eventId],
       if prepareMealOk then AttemptResult.success
       else AttemptResult.failure "Transient failure from prepareMeal.")
    | some existing =>
      (some existing,
       [Effect.callChooseCook, Effect.callPrepareMealById ev.eventId],
       if prepareMealOk then AttemptResult.success
       else AttemptResult.failure "Transient failure from prepareMeal.")

/-- Embedding of nonIdempotentProcessOrder of src/order-processing/index.js:
call chooseCook, add the order with the chosen cook to the collection, then
call prepareMeal with the full order body. -/
def nonIdempotentProcessOrder (base64ToString : String → String)
    (ev : OrderEvent) (chooseCookResult : Option String)
    (prepareMealOk : Bool) (store : List Order) :
    List Order × List Effect × AttemptResult :=
  match chooseCookResult with
  | none =>
    (store, [Effect.callChooseCook],
     AttemptResult.failure "Transient failure from chooseCook.")
  | some cook =>
    (store ++ [{ builtOrder base64ToString ev with cook := some cook }],
     [Effect.callChooseCook, Effect.writeOrder,
      Effect.callPrepareMeal { builtOrder base64ToString ev with cook := some cook }],
     if prepareMealOk then AttemptResult.success
     else AttemptResult.failure "Transient failure from prepareMeal.")

/-- A decide transaction that resolves alreadyDone leaves the record
exactly as it found it. -/
theorem shouldSendWithLeaseAt_alreadyDone (now leaseDuration : Nat)
    (doc : Option DedupRecord)
    (h : (shouldSendWithLeaseAt now leaseDuration doc).1 = Decision.alreadyDone) :
    shouldSendWithLeaseAt now leaseDuration doc = (Decision.alreadyDone, doc) := by
  by_cases hs : docSent doc
  · simp [shouldSendWithLeaseAt, hs]
  · by_cases hl : docLiveLease now doc
    · simp [shouldSendWithLeaseAt, hs, hl] at h
    · simp [shouldSendWithLeaseAt, hs, hl] at h

/-- Claim C8: when decide observes a live lease, the ledger-gated attempt
fails as a whole with the lease rejection, produces no side effect at all,
and leaves the dedup record exactly as it was. -/
theorem leaseHeld_fails_attempt (jsonParse : String → Except String Json)
    (base64ToString : String → String) (data : Option String)
    (eventId : String) (now : Nat) (flakyOk : Bool) (d : DedupRecord)
    (t : Nat) (c : Json)
    (hc : messageContent jsonParse base64ToString data = Except.ok c)
    (hs : d.sent = false) (hl : d.lease = some t) (hlt : now < t) :
    idempotentEmailFunction jsonParse base64ToString data eventId now flakyOk
        (some d) =
      (some d, [], AttemptResult.failure "Lease already taken, try later.") := by
  have hdec : shouldSendWithLease now (some d) = (Decision.leaseHeld, some d) := by
    simp [shouldSendWithLease, shouldSendWithLeaseAt, docSent, docLiveLease,
      hs, hl, hlt]
  simp [idempotentEmailFunction, hc, hdec]

/-- Witness for C8: a live lease at time 5 expiring at 10 rejects the whole
attempt with no effect and no state change. -/
theorem leaseHeld_fails_attempt_witness :
    idempotentEmailFunction (fun _ => Except.ok Json.null) (fun s => s) none
        "e1" 5 true (some { sent := false, lease := some 10 }) =
      (some { sent := false, lease := some 10 }, [],
       AttemptResult.failure "Lease already taken, try later.") :=
  leaseHeld_fails_attempt (fun _ => Except.ok Json.null) (fun s => s) none
    "e1" 5 true { sent := false, lease := some 10 } 10 Json.null rfl rfl rfl
    (by decide)

/-- Counterexample to C4 as stated: on a record already marked sent, decide
resolves alreadyDone, yet the attempt still issues the external call to the
flaky service. -/
theorem idempotentEmail_alreadyDone_calls_flaky :
    (shouldSendWithLease 0 (some { sent := true, lease := none })).1 =
      Decision.alreadyDone ∧
    Effect.callFlaky (some "e1") ∈
      (idempotentEmailFunction (fun _ => Except.ok Json.null) (fun s => s)
        none "e1" 0 true (some { sent := true, lease := none })).2.1 := by
  constructor
  · rfl
  · show Effect.callFlaky (some "e1") ∈ [Effect.callFlaky (some "e1")]
    exact List.mem_singleton.mpr rfl

/-- Claim C4 as amended: when decide resolves alreadyDone, the attempt
sends no email and performs no store write and leaves the record unchanged,
but it still issues the flaky call, passing the event id as idempotency
key; that call is the only effect of the attempt. -/
theorem idempotentEmail_alreadyDone_behavior
    (jsonParse : String → Except String Json)
    (base64ToString : String → String) (data : Option String)
    (eventId : String) (now : Nat) (flakyOk : Bool)
    (doc : Option DedupRecord) (c : Json)
    (hc : messageContent jsonParse base64ToString data = Except.ok c)
    (hd : (shouldSendWithLease now doc).1 = Decision.alreadyDone) :
    (idempotentEmailFunction jsonParse base64ToString data eventId now
        flakyOk doc).1 = doc ∧
    (idempotentEmailFunction jsonParse base64ToString data eventId now
        flakyOk doc).2.1 = [Effect.callFlaky (some eventId)] := by
  have heq : shouldSendWithLease now doc = (Decision.alreadyDone, doc) :=
    shouldSendWithLeaseAt_alreadyDone now leaseTime doc hd
  constructor
  · simp [idempotentEmailFunction, hc, heq]
  · simp [idempotentEmailFunction, hc, heq]

/-- Witness for the amended C4: a sent record keeps its state and produces
only the keyed flaky call. -/
theorem idempotentEmail_alreadyDone_behavior_witness :
    (idempotentEmailFunction (fun _ => Except.ok Json.null) (fun s => s) none
        "e1" 0 true (some { sent := true, lease := none })).1 =
      some { sent := true, lease := none } ∧
    (idempotentEmailFunction (fun _ => Except.ok Json.null) (fun s => s) none
        "e1" 0 true (some { sent := true, lease := none })).2.1 =
      [Effect.callFlaky (some "e1")] :=
  idempotentEmail_alreadyDone_behavior (fun _ => Except.ok Json.null)
    (fun s => s) none "e1" 0 true (some { sent := true, lease := none })
    Json.null rfl rfl

/-- Counterexample to C6 as stated: an existing contents document is not
left unchanged; the set call replaces it with the new event content. -/
theorem idempotentFirestore_overwrites :
    (idempotentFirestoreFunction (fun _ => Except.ok (Json.obj []))
        (fun s => s) none "e1" true (some (Json.str "old"))).1 ≠
      some (Json.str "old") := by
  intro h
  rw [show (idempotentFirestoreFunction (fun _ => Except.ok (Json.obj []))
      (fun s => s) none "e1" true (some (Json.str "old"))).1 =
      some (Json.obj []) from rfl] at h
  exact Json.noConfusion (Option.some.inj h)

/-- Claim C6 as amended: the persistence write is keyed by the event id but
performed unconditionally with replace semantics: whatever document the key
holds, afterwards it holds exactly the event content (so no duplicate
record is ever created), and the keyed flaky call proceeds afterwards. -/
theorem idempotentFirestore_write_then_call
    (jsonParse : String → Except String Json)
    (base64ToString : String → String) (data : Option String)
    (eventId : String) (flakyOk : Bool) (doc : Option Json) (c : Json)
    (hc : messageContent jsonParse base64ToString data = Except.ok c) :
    idempotentFirestoreFunction jsonParse base64ToString data eventId
        flakyOk doc =
      (some c, [Effect.writeStore, Effect.callFlaky (some eventId)],
       if flakyOk then AttemptResult.success
       else AttemptResult.failure "Flaky service failed.") := by
  simp [idempotentFirestoreFunction, hc]

/-- Witness for the amended C6: a concrete run stores the parsed content
and issues the write and the keyed call. -/
theorem idempotentFirestore_write_then_call_witness :
    idempotentFirestoreFunction (fun _ => Except.ok (Json.obj []))
        (fun s => s) none "e1" true (some (Json.str "old")) =
      (some (Json.obj []),
       [Effect.writeStore, Effect.callFlaky (some "e1")],
       AttemptResult.success) :=
  idempotentFirestore_write_then_call (fun _ => Except.ok (Json.obj []))
    (fun s => s) none "e1" true (some (Json.str "old")) (Json.obj []) rfl

/-- Counterexample to C5 as stated: redelivering an event whose order
record is already persisted still invokes the chooseCook service. -/
theorem processOrder_redelivery_calls_chooseCook :
    Effect.callChooseCook ∈
      (processOrderRetryIdempotent (fun s => s)
        { eventId := "e1", timestamp := "t1", data := none } (some "Mike")
        true
        (some { id := "e1", timestamp := "t1", meal := "pasta",
                cook := some "John" })).2.1 := by
  show Effect.callChooseCook ∈
    [Effect.callChooseCook, Effect.callPrepareMealById "e1"]
  exact List.mem_cons_self _ _

/-- Claim C5 as amended: chooseCook is invoked on every delivery, including
re-deliveries after the order record is persisted, because the call happens
before the gated transaction; however, when a record already exists the
transaction skips the write, the fresh assignment is discarded, and the
persisted order with its cook never changes. -/
theorem processOrder_chooseCook_before_gate (base64ToString : String → String)
    (ev : OrderEvent) (chooseCookResult : Option String)
    (prepareMealOk : Bool) (existing : Order) :
    Effect.callChooseCook ∈
      (processOrderRetryIdempotent base64ToString ev chooseCookResult
        prepareMealOk (some existing)).2.1 ∧
    (processOrderRetryIdempotent base64ToString ev chooseCookResult
        prepareMealOk (some existing)).1 = some existing ∧
    Effect.writeOrder ∉
      (processOrderRetryIdempotent base64ToString ev chooseCookResult
        prepareMealOk (some existing)).2.1 := by
  cases chooseCookResult with
  | none => simp [processOrderRetryIdempotent]
  | some cook => simp [processOrderRetryIdempotent]

/-- Claim C9: the order record keyed by the event id is written at most
once: an existing record is returned unchanged in every field by any
re-execution, and the write effect occurs only when no record exists. -/
theorem orderRecord_write_once (base64ToString : String → String)
    (ev : OrderEvent) (chooseCookResult : Option String)
    (prepareMealOk : Bool) (doc : Option Order) :
    (∀ existing : Order, doc = some existing →
      (processOrderRetryIdempotent base64ToString ev chooseCookResult
        prepareMealOk doc).1 = some existing) ∧
    (Effect.writeOrder ∈
        (processOrderRetryIdempotent base64ToString ev chooseCookResult
          prepareMealOk doc).2.1 →
      doc = none) := by
  cases chooseCookResult with
  | none =>
    cases doc with
    | none => simp [processOrderRetryIdempotent]
    | some o => simp [processOrderRetryIdempotent]
  | some cook =>
    cases doc with
    | none => simp [processOrderRetryIdempotent]
    | some o => simp [processOrderRetryIdempotent]

/-- Witness for C9: a persisted order with cook John survives a
re-execution that chose Mike, unchanged. -/
theorem orderRecord_write_once_witness :
    (processOrderRetryIdempotent (fun s => s)
        { eventId := "e1", timestamp := "t1", data := none } (some "Mike")
        true
        (some { id := "e1", timestamp := "t1", meal := "pasta",
                cook := some "John" })).1 =
      some { id := "e1", timestamp := "t1", meal := "pasta",
             cook := some "John" } :=
  (orderRecord_write_once (fun s => s)
      { eventId := "e1", timestamp := "t1", data := none } (some "Mike")
      true
      (some { id := "e1", timestamp := "t1", meal := "pasta",
              cook := some "John" })).1
    { id := "e1", timestamp := "t1", meal := "pasta", cook := some "John" }
    rfl

/-- Claim C10: when the message body is absent or decodes to the empty
string, the parsed content is the empty JSON object, the order meal is the
empty string, and the entry points proceed: pubSubFunction still issues the
flaky call and nonIdempotentFirestoreFunction still appends the empty
object. The first two hypotheses record the behavior of the external
builtins JSON.parse and Buffer decoding on the relevant inputs. -/
theorem emptyMessage_defaults (jsonParse : String → Except String Json)
    (base64ToString : String → String) (data : Option String)
    (flakyOk : Bool) (store : List Json)
    (hjp : jsonParse jsonEmptyObjectText = Except.ok (Json.obj []))
    (hb : base64ToString "" = "")
    (hdata : data = none ∨ base64ToString (data.getD "") = "") :
    messageContent jsonParse base64ToString data = Except.ok (Json.obj []) ∧
    orderMeal base64ToString data = "" ∧
    (pubSubFunction jsonParse base64ToString data flakyOk).1 =
      [Effect.callFlaky none] ∧
    (nonIdempotentFirestoreFunction jsonParse base64ToString data flakyOk
        store).1 = store ++ [Json.obj []] := by
  have hdec : base64ToString (data.getD "") = "" := by
    rcases hdata with h | h
    · rw [h]; exact hb
    · exact h
  have hcontent : messageContent jsonParse base64ToString data =
      Except.ok (Json.obj []) := by
    simp [messageContent, hdec, hjp]
  refine ⟨hcontent, ?_, ?_, ?_⟩
  · cases data with
    | none => rfl
    | some d =>
      by_cases hd : d = ""
      · simp [orderMeal, hd]
      · simpa [orderMeal, hd] using hdec
  · simp [pubSubFunction, hcontent]
  · simp [nonIdempotentFirestoreFunction, hcontent]

/-- Witness for C10: a missing body parses to the empty object and yields
an empty meal under concrete builtins. -/
theorem emptyMessage_defaults_witness :
    messageContent (fun _ => Except.ok (Json.obj [])) (fun s => s) none =
      Except.ok (Json.obj []) ∧
    orderMeal (fun s => s) none = "" :=
  ⟨(emptyMessage_defaults (fun _ => Except.ok (Json.obj [])) (fun s => s)
      none true [] rfl rfl (Or.inl rfl)).1,
   (emptyMessage_defaults (fun _ => Except.ok (Json.obj [])) (fun s => s)
      none true [] rfl rfl (Or.inl rfl)).2.1⟩
